import Mathlib

/-!
Shallow embedding of the GammaRips MCP overnight-edge read layer:
the tier-gated orchestrator in `src/tools/overnight_signals.py` and the
primary store adapter in `src/data/firestore_client.py`.

Python dictionaries are modelled as association lists of string keys and
values.  Because the orchestrator copies and mutates dictionaries
(`sig.copy()`, `s.pop(field, None)`), dictionaries handled by the
orchestrator live in an explicit heap of cells addressed by natural-number
references; the adapters are oracles returning references into that heap.
Every adapter call made by the orchestrator is recorded in a trace so that
"the fallback is invoked exactly once" style properties are statable.
-/

/-- A Python value as it occurs in the signal / theme documents. -/
inductive Value where
  | str (s : String)
  | int (n : Int)
  | strList (l : List String)
deriving DecidableEq, Repr

/-- A Python dict with string keys: an association list (keys unique in
practice; all operations below agree with dict semantics on such lists). -/
abbrev Dict := List (String × Value)

namespace Dict

/-- Lookup `d.get(k)` / `d[k]`: first binding of `k`. -/
def get? (d : Dict) (k : String) : Option Value :=
  match d with
  | [] => none
  | kv :: rest => if kv.1 = k then some kv.2 else get? rest k

/-- Removal `d.pop(k, None)`: remove the binding of `k` (all bindings, which is the
same thing on a duplicate-free list). -/
def pop (d : Dict) (k : String) : Dict :=
  d.filter (fun kv => kv.1 != k)

/-- Python truthiness of a dict: the empty dict is falsy. -/
def isTruthy (d : Dict) : Bool := !d.isEmpty

end Dict

/-- A reference to a heap cell holding a dict. -/
abbrev Ref := Nat

/-- The heap of dict objects manipulated by the orchestrator. -/
structure Heap where
  cells : List Dict
deriving DecidableEq, Repr

namespace Heap

/-- Dereference: out-of-range references read as the empty dict. -/
def read (h : Heap) (r : Ref) : Dict := h.cells.getD r []

/-- Allocate a fresh cell holding `d`; returns the new heap and the fresh
reference. -/
def alloc (h : Heap) (d : Dict) : Heap × Ref :=
  (⟨h.cells ++ [d]⟩, h.cells.length)

/-- Overwrite cell `r` with `d` (no-op when out of range). -/
def write (h : Heap) (r : Ref) (d : Dict) : Heap := ⟨h.cells.set r d⟩

/-- Shallow copy `obj.copy()`: copy the dict at `r` into a fresh cell. -/
def copy (h : Heap) (r : Ref) : Heap × Ref := h.alloc (h.read r)

/-- In-place `obj.pop(k, None)` on the dict at `r`. -/
def popKey (h : Heap) (r : Ref) (k : String) : Heap :=
  h.write r ((h.read r).pop k)

end Heap

/-- The paid-only signal fields removed for the FREE tier
(`overnight_signals.py` lines 72-76). -/
def paidFields : List String :=
  ["recommended_contract", "recommended_strike", "recommended_expiration",
   "recommended_mid_price", "contract_score", "technicals", "news",
   "catalyst_summary", "flow_details"]

/-- The body of one iteration of the FREE-tier filtering loop: shallow-copy
the dict at `r` and pop each field of `fields` from the copy, in place. -/
def stripOne (h : Heap) (fields : List String) (r : Ref) : Heap × Ref :=
  let hc := h.copy r
  (fields.foldl (fun h2 f => h2.popKey hc.2 f) hc.1, hc.2)

/-- The FREE-tier filtering loop: `filtered = []; for x in xs: c = x.copy();
for f in fields: c.pop(f, None); filtered.append(c)`. -/
def stripFields (h : Heap) (rs : List Ref) (fields : List String) :
    Heap × List Ref :=
  match rs with
  | [] => (h, [])
  | r :: rest =>
    let p := stripOne h fields r
    let q := stripFields p.1 rest fields
    (q.1, p.2 :: q.2)

/-- Pure counterpart of popping each field of `fs` from a dict. -/
def removeKeys (d : Dict) (fs : List String) : Dict :=
  fs.foldl (fun d2 k => d2.pop k) d

/-- The injected `_user_info` payload: an optional `tier` entry. -/
structure UserInfo where
  tier : Option String
deriving DecidableEq, Repr

/-- The `**kwargs` side channel: an optional `_user_info` entry. -/
structure Kwargs where
  user_info : Option UserInfo
deriving DecidableEq, Repr

/-- Tier resolution `_get_user_tier`: read the `_user_info` entry of the
keyword arguments, defaulting to an empty payload, then its `tier` entry,
defaulting to "FREE". -/
def get_user_tier (kwargs : Kwargs) : String :=
  ((kwargs.user_info).getD ⟨none⟩).tier.getD "FREE"

/-- One adapter invocation made by the orchestrator (the recorded trace
element). -/
inductive Call where
  | fsSignals (date direction : String) (minScore limit : Int)
  | bqSignals (date direction : String) (minScore limit : Int)
  | fsDetail (ticker date : String)
  | bqDetail (ticker date : String)
  | fsThemes (date : String)
  | bqThemes (date : String)
deriving DecidableEq, Repr

/-- Result dict of `bq_client.get_overnight_signals`: the orchestrator reads
`bq_res.get("signals", [])` and `bq_res.get("scan_date", query_date)`, so
only those two optional entries are modelled. -/
structure BQSignalsRes where
  signals : Option (List Ref)
  scan_date : Option String
deriving DecidableEq, Repr

/-- Result dict of `bq_client.get_market_themes`, read the same way. -/
structure BQThemesRes where
  themes : Option (List Ref)
  scan_date : Option String
deriving DecidableEq, Repr

/-- The orchestrator's environment: the initial heap, the two adapters as
oracles returning references into that heap, and the value of
`datetime.now().strftime("%Y-%m-%d")` at the time of the call. -/
structure Env where
  heap : Heap
  fsSignals : String → String → Int → Int → List Ref
  bqSignals : String → String → Int → Int → BQSignalsRes
  fsDetail : String → String → Option Ref
  bqDetail : String → String → Option Ref
  fsThemes : String → List Ref
  bqThemes : String → BQThemesRes
  today : String

/-- The FREE-tier upgrade block attached to a signals response. -/
structure Upgrade where
  message : String
  plans : List (String × String × String)
deriving DecidableEq, Repr

/-- The upgrade block built at `overnight_signals.py` lines 89-95. -/
def mkUpgrade (count : Nat) : Upgrade :=
  { message := "You're seeing " ++ toString count ++
      " signals (score 7+ only). Unlock all signals, contracts, technicals & AI analysis."
    plans :=
      [("The Overnight Edge", "$49/mo", "https://gammarips.com/#pricing"),
       ("The War Room", "$149/mo", "https://gammarips.com/#pricing")] }

/-- The response dict of `get_overnight_signals`. -/
structure SignalsResponse where
  scan_date : String
  total_signals : Nat
  signals : List Ref
  upgrade : Option Upgrade
deriving DecidableEq, Repr

/-- Tail of `get_overnight_signals` after the fallback decision: FREE-tier
field filtering (lines 66-79), response assembly and the FREE-tier upgrade
block (lines 81-95). -/
def finishSignals (env : Env) (tier query_date : String) (sigs : List Ref)
    (calls : List Call) : SignalsResponse × Heap × List Call :=
  if tier = "FREE" then
    let hs := stripFields env.heap sigs paidFields
    ({ scan_date := query_date, total_signals := hs.2.length,
       signals := hs.2, upgrade := some (mkUpgrade hs.2.length) },
     hs.1, calls)
  else
    ({ scan_date := query_date, total_signals := sigs.length,
       signals := sigs, upgrade := none },
     env.heap, calls)

/-- The tool `get_overnight_signals(direction, min_score, limit, date,
**kwargs)`, returning the response, the final heap and the trace of adapter
calls. -/
def get_overnight_signals (env : Env) (direction : String)
    (min_score limit : Int) (date : String) (kwargs : Kwargs) :
    SignalsResponse × Heap × List Call :=
  let tier := get_user_tier kwargs
  let ms := if tier = "FREE" then max min_score 7 else min_score
  let lim := if tier = "FREE" then min limit 10 else limit
  let query_date := if date = "latest" then env.today else date
  let sigs := env.fsSignals query_date direction ms lim
  if sigs.isEmpty then
    let res := env.bqSignals date direction ms lim
    finishSignals env tier (res.scan_date.getD query_date)
      (res.signals.getD [])
      [Call.fsSignals query_date direction ms lim,
       Call.bqSignals date direction ms lim]
  else
    finishSignals env tier query_date sigs
      [Call.fsSignals query_date direction ms lim]

/-- Result of `get_signal_detail`: either one of the two error dicts built
in the source, or the signal dict itself (as a heap reference). -/
inductive DetailResult where
  | upgradeRequired (message url : String)
  | notFound (error : String) (ticker : String)
  | signal (r : Ref)
deriving DecidableEq, Repr

/-- Python truthiness of `Optional[Dict]`: `None` and the empty dict are
falsy. -/
def isFalsy (h : Heap) : Option Ref → Bool
  | none => true
  | some r => (h.read r).isEmpty

/-- The tool `get_signal_detail(ticker, date, **kwargs)` with its call
trace. -/
def get_signal_detail (env : Env) (ticker date : String) (kwargs : Kwargs) :
    DetailResult × List Call :=
  let tier := get_user_tier kwargs
  if tier = "FREE" then
    (.upgradeRequired "Signal deep dives require The Overnight Edge ($49/mo)"
       "https://gammarips.com/#pricing", [])
  else
    let query_date := if date = "latest" then env.today else date
    let sig0 := env.fsDetail ticker query_date
    let step :=
      if isFalsy env.heap sig0 then
        (env.bqDetail ticker date,
         [Call.fsDetail ticker query_date, Call.bqDetail ticker date])
      else (sig0, [Call.fsDetail ticker query_date])
    match step.1 with
    | none => (.notFound "Signal not found" ticker, step.2)
    | some r =>
      if (env.heap.read r).isEmpty then
        (.notFound "Signal not found" ticker, step.2)
      else (.signal r, step.2)

/-- The response dict of `get_market_themes`. -/
structure ThemesResponse where
  scan_date : String
  themes : List Ref
deriving DecidableEq, Repr

/-- The tool `get_market_themes(date, **kwargs)` with final heap and call
trace. -/
def get_market_themes (env : Env) (date : String) (kwargs : Kwargs) :
    ThemesResponse × Heap × List Call :=
  let tier := get_user_tier kwargs
  let query_date := if date = "latest" then env.today else date
  let ts := env.fsThemes query_date
  let step :=
    if ts.isEmpty then
      let res := env.bqThemes date
      (res.themes.getD [], res.scan_date.getD query_date,
       [Call.fsThemes query_date, Call.bqThemes date])
    else (ts, query_date, [Call.fsThemes query_date])
  if tier = "FREE" then
    let hs := stripFields env.heap step.1 ["tickers"]
    ({ scan_date := step.2.1, themes := hs.2 }, hs.1, step.2.2)
  else
    ({ scan_date := step.2.1, themes := step.1 }, env.heap, step.2.2)

/-- A per-date market-themes summary document: its plain fields (including
`scan_date`) and its optional `themes` entry, which holds the list of theme
dicts that `data.get("themes", [])` extracts. -/
structure ThemeSummaryDoc where
  fields : Dict
  themes : Option (List Dict)
deriving DecidableEq, Repr

/-- The external Firestore state seen by one adapter call: the
`overnight_signals` collection, the `market_themes` collection, and — when
`failure` is set — the exception the store raises while the query streams. -/
structure Store where
  signalDocs : List Dict
  themeDocs : List ThemeSummaryDoc
  failure : Option String
deriving Repr

/-- The `overnight_score` field of a document, as the store's ordering
key. -/
def scoreOf (d : Dict) : Int :=
  match d.get? "overnight_score" with
  | some (.int n) => n
  | _ => 0

/-- Insert into a list sorted by `overnight_score` descending. -/
def insertByScore (d : Dict) : List Dict → List Dict
  | [] => [d]
  | x :: xs =>
    if scoreOf x < scoreOf d then d :: x :: xs else x :: insertByScore d xs

/-- `order_by("overnight_score", DESCENDING)`. -/
def sortByScoreDesc (l : List Dict) : List Dict := l.foldr insertByScore []

namespace FirestoreClient

/-- The `try` body of `FirestoreClient.get_overnight_signals`: equality
filter on `scan_date`, conditional filters on `direction` and
`overnight_score`, descending order, limit; raises when the store fails. -/
def querySignals (store : Store) (date : String) (direction : String)
    (min_score : Int) (limit : Int) : Except String (List Dict) :=
  match store.failure with
  | some e => .error e
  | none =>
    let docs := store.signalDocs.filter
      (fun d => d.get? "scan_date" == some (.str date))
    let docs :=
      if direction != "ALL" then
        docs.filter (fun d => d.get? "direction" == some (.str direction))
      else docs
    let docs :=
      if min_score > 0 then
        docs.filter (fun d => decide (min_score ≤ scoreOf d))
      else docs
    .ok ((sortByScoreDesc docs).take limit.toNat)

/-- Wrapper `FirestoreClient.get_overnight_signals`: the `try`/`except`
block that downgrades any store failure to an empty list. -/
def get_overnight_signals (store : Store) (date : String)
    (direction : String) (min_score : Int) (limit : Int) : List Dict :=
  match querySignals store date direction min_score limit with
  | .ok sigs => sigs
  | .error _ => []

/-- The `try` body of `FirestoreClient.get_signal_detail`: equality filters
on `scan_date` and `ticker`, `limit(1)`, first document if any. -/
def queryDetail (store : Store) (ticker date : String) :
    Except String (Option Dict) :=
  match store.failure with
  | some e => .error e
  | none =>
    .ok ((store.signalDocs.filter
      (fun d => d.get? "scan_date" == some (.str date) &&
                d.get? "ticker" == some (.str ticker))).take 1).head?

/-- Wrapper `FirestoreClient.get_signal_detail`: failures downgrade to
`None`. -/
def get_signal_detail (store : Store) (ticker date : String) : Option Dict :=
  match queryDetail store ticker date with
  | .ok r => r
  | .error _ => none

/-- The `try` body of `FirestoreClient.get_market_themes`: equality filter
on `scan_date`, `limit(1)`, then `data.get("themes", [])` on the first
document; absent document yields the empty list. -/
def queryThemes (store : Store) (date : String) :
    Except String (List Dict) :=
  match store.failure with
  | some e => .error e
  | none =>
    match ((store.themeDocs.filter
      (fun d => d.fields.get? "scan_date" == some (.str date))).take 1).head? with
    | some data => .ok (data.themes.getD [])
    | none => .ok []

/-- Wrapper `FirestoreClient.get_market_themes`: failures downgrade to
`[]`. -/
def get_market_themes (store : Store) (date : String) : List Dict :=
  match queryThemes store date with
  | .ok ts => ts
  | .error _ => []

end FirestoreClient

/-! ### Concrete fixtures used by the closed witness theorems -/

/-- A sample signal document with premium fields. -/
def sigDoc : Dict :=
  [("ticker", Value.str "AAPL"), ("overnight_score", Value.int 9),
   ("direction", Value.str "BULLISH"), ("technicals", Value.str "secret"),
   ("news", Value.str "headline")]

/-- A sample theme document. -/
def themeDoc : Dict :=
  [("name", Value.str "AI"), ("tickers", Value.strList ["NVDA", "AMD"])]

/-- A sample environment whose primary adapter finds data. -/
def envW : Env :=
  { heap := ⟨[sigDoc, themeDoc]⟩
    fsSignals := fun _ _ _ _ => [0]
    bqSignals := fun _ _ _ _ => ⟨some [0], some "2025-01-02"⟩
    fsDetail := fun _ _ => some 0
    bqDetail := fun _ _ => some 0
    fsThemes := fun _ => [1]
    bqThemes := fun _ => ⟨some [1], some "2025-01-02"⟩
    today := "2025-01-03" }

/-- A sample environment whose primary adapter finds nothing. -/
def envE : Env :=
  { heap := ⟨[sigDoc, themeDoc]⟩
    fsSignals := fun _ _ _ _ => []
    bqSignals := fun _ _ _ _ => ⟨some [0], some "2025-01-02"⟩
    fsDetail := fun _ _ => none
    bqDetail := fun _ _ => none
    fsThemes := fun _ => []
    bqThemes := fun _ => ⟨none, none⟩
    today := "2025-01-03" }

/-- Request context of a FREE-tier caller. -/
def kwFree : Kwargs := ⟨some ⟨some "FREE"⟩⟩

/-- Request context of a paid-tier caller. -/
def kwEdge : Kwargs := ⟨some ⟨some "EDGE"⟩⟩

/-- A store whose query raises. -/
def storeFailW : Store := ⟨[sigDoc], [], some "connection error"⟩

/-! ### Dictionary lemmas -/

theorem Dict.get?_pop_self (d : Dict) (k : String) :
    (Dict.pop d k).get? k = none := by
  induction d with
  | nil => rfl
  | cons kv rest ih =>
    simp only [Dict.pop, List.filter_cons] at *
    by_cases hk : kv.1 = k
    · simp [hk, ih]
    · simp [hk, Dict.get?, ih]

theorem Dict.get?_pop_other (d : Dict) (k k' : String) (hne : k' ≠ k) :
    (Dict.pop d k).get? k' = d.get? k' := by
  induction d with
  | nil => rfl
  | cons kv rest ih =>
    simp only [Dict.pop, List.filter_cons] at *
    by_cases hk : kv.1 = k
    · have hkk : ¬ (k = k') := fun hh => hne hh.symm
      simp [hk, Dict.get?, ih, hkk]
    · simp [hk, Dict.get?, ih]

theorem removeKeys_cons (d : Dict) (g : String) (gs : List String) :
    removeKeys d (g :: gs) = removeKeys (d.pop g) gs := rfl

theorem Dict.get?_pop_none (d : Dict) (k k' : String)
    (h : d.get? k' = none) : (Dict.pop d k).get? k' = none := by
  by_cases hk : k' = k
  · subst hk; exact Dict.get?_pop_self d k'
  · rw [Dict.get?_pop_other d k k' hk]; exact h

theorem removeKeys_get?_none (d : Dict) (fs : List String) (f : String)
    (h : d.get? f = none) : (removeKeys d fs).get? f = none := by
  induction fs generalizing d with
  | nil => exact h
  | cons g gs ih =>
    simp only [removeKeys, List.foldl_cons] at *
    exact ih _ (Dict.get?_pop_none d g f h)

theorem removeKeys_get?_mem (d : Dict) (fs : List String) (f : String)
    (h : f ∈ fs) : (removeKeys d fs).get? f = none := by
  induction fs generalizing d with
  | nil => cases h
  | cons g gs ih =>
    simp only [removeKeys, List.foldl_cons]
    rcases List.mem_cons.1 h with hf | hf
    · subst hf
      exact removeKeys_get?_none _ gs f (Dict.get?_pop_self d f)
    · exact ih (d.pop g) hf

theorem removeKeys_get?_not_mem (d : Dict) (fs : List String) (f : String)
    (h : f ∉ fs) : (removeKeys d fs).get? f = d.get? f := by
  induction fs generalizing d with
  | nil => rfl
  | cons g gs ih =>
    rw [removeKeys_cons]
    have hg : f ≠ g := fun hfg => h (hfg ▸ List.mem_cons_self g gs)
    have hgs : f ∉ gs := fun hf => h (List.mem_cons_of_mem g hf)
    rw [ih (d.pop g) hgs, Dict.get?_pop_other d g f hg]

/-! ### Heap lemmas -/

theorem Heap.length_write (h : Heap) (r : Ref) (d : Dict) :
    (h.write r d).cells.length = h.cells.length := by
  simp [Heap.write]

theorem Heap.read_write_self (h : Heap) (r : Ref) (d : Dict)
    (hr : r < h.cells.length) : (h.write r d).read r = d := by
  simp [Heap.write, Heap.read, List.getD_eq_getElem?_getD,
    List.getElem?_set_self, hr]

theorem Heap.read_write_other (h : Heap) (r r' : Ref) (d : Dict)
    (hne : r' ≠ r) : (h.write r d).read r' = h.read r' := by
  simp [Heap.write, Heap.read, List.getD_eq_getElem?_getD,
    List.getElem?_set_ne (Ne.symm hne)]

theorem Heap.read_alloc_other (h : Heap) (d : Dict) (r : Ref)
    (hne : r ≠ h.cells.length) : (h.alloc d).1.read r = h.read r := by
  rcases Nat.lt_or_ge r h.cells.length with hr | hr
  · simp [Heap.alloc, Heap.read, List.getD_eq_getElem?_getD,
      List.getElem?_append_left hr]
  · have hgt : h.cells.length < r := lt_of_le_of_ne hr (Ne.symm hne)
    have h1 : (h.cells ++ [d]).length ≤ r := by simpa using hgt
    have h2 : h.cells.length ≤ r := le_of_lt hgt
    simp [Heap.alloc, Heap.read, List.getD_eq_getElem?_getD,
      List.getElem?_eq_none h1, List.getElem?_eq_none h2]

theorem Heap.read_alloc_new (h : Heap) (d : Dict) :
    (h.alloc d).1.read h.cells.length = d := by
  simp [Heap.alloc, Heap.read, List.getD_eq_getElem?_getD]

/-! ### Lemmas about the in-place pop loop and the filtering loop -/

theorem length_popFold (fields : List String) (h : Heap) (s : Ref) :
    (fields.foldl (fun h2 f => h2.popKey s f) h).cells.length =
      h.cells.length := by
  induction fields generalizing h with
  | nil => rfl
  | cons g gs ih =>
    simp only [List.foldl_cons]
    rw [ih]
    exact Heap.length_write h s _

theorem read_popFold_other (fields : List String) (h : Heap) (s r : Ref)
    (hne : r ≠ s) :
    (fields.foldl (fun h2 f => h2.popKey s f) h).read r = h.read r := by
  induction fields generalizing h with
  | nil => rfl
  | cons g gs ih =>
    simp only [List.foldl_cons]
    rw [ih]
    exact Heap.read_write_other h s r _ hne

theorem read_popFold_self (fields : List String) (h : Heap) (s : Ref)
    (hs : s < h.cells.length) :
    (fields.foldl (fun h2 f => h2.popKey s f) h).read s =
      removeKeys (h.read s) fields := by
  induction fields generalizing h with
  | nil => rfl
  | cons g gs ih =>
    simp only [List.foldl_cons, removeKeys_cons]
    have hlen : s < (h.popKey s g).cells.length := by
      simpa [Heap.popKey, Heap.length_write] using hs
    rw [ih (h.popKey s g) hlen]
    rw [Heap.popKey, Heap.read_write_self h s _ hs]

theorem stripOne_ref (h : Heap) (fields : List String) (r : Ref) :
    (stripOne h fields r).2 = h.cells.length := rfl

theorem stripOne_length (h : Heap) (fields : List String) (r : Ref) :
    (stripOne h fields r).1.cells.length = h.cells.length + 1 := by
  simp only [stripOne]
  rw [length_popFold]
  simp [Heap.copy, Heap.alloc]

theorem stripOne_read_other (h : Heap) (fields : List String) (r r' : Ref)
    (hne : r' ≠ h.cells.length) :
    (stripOne h fields r).1.read r' = h.read r' := by
  simp only [stripOne, Heap.copy, Heap.alloc]
  rw [read_popFold_other _ _ _ _ hne]
  exact Heap.read_alloc_other h _ r' hne

theorem stripOne_read_new (h : Heap) (fields : List String) (r : Ref) :
    (stripOne h fields r).1.read h.cells.length =
      removeKeys (h.read r) fields := by
  simp only [stripOne, Heap.copy, Heap.alloc]
  have hs : h.cells.length < (Heap.mk (h.cells ++ [h.read r])).cells.length := by
    simp
  rw [read_popFold_self _ _ _ hs]
  have hh : (Heap.mk (h.cells ++ [h.read r])).read h.cells.length = h.read r :=
    Heap.read_alloc_new h (h.read r)
  rw [hh]

theorem stripFields_length_heap (h : Heap) (rs : List Ref)
    (fields : List String) :
    (stripFields h rs fields).1.cells.length =
      h.cells.length + rs.length := by
  induction rs generalizing h with
  | nil => rfl
  | cons r rest ih =>
    simp only [stripFields]
    rw [ih, stripOne_length]
    simp [List.length_cons]
    omega

theorem stripFields_read_old (h : Heap) (rs : List Ref)
    (fields : List String) (r' : Ref) (hr : r' < h.cells.length) :
    (stripFields h rs fields).1.read r' = h.read r' := by
  induction rs generalizing h with
  | nil => rfl
  | cons r rest ih =>
    simp only [stripFields]
    have h1 : r' < (stripOne h fields r).1.cells.length := by
      rw [stripOne_length]; exact Nat.lt_succ_of_lt hr
    rw [ih _ h1]
    exact stripOne_read_other h fields r r' (Nat.ne_of_lt hr)

theorem stripFields_length_out (h : Heap) (rs : List Ref)
    (fields : List String) :
    (stripFields h rs fields).2.length = rs.length := by
  induction rs generalizing h with
  | nil => rfl
  | cons r rest ih =>
    simp only [stripFields, List.length_cons]
    rw [ih]

theorem stripFields_no_field (h : Heap) (rs : List Ref)
    (fields : List String) :
    ∀ s ∈ (stripFields h rs fields).2, ∀ f ∈ fields,
      ((stripFields h rs fields).1.read s).get? f = none := by
  induction rs generalizing h with
  | nil => intro s hs; cases hs
  | cons r rest ih =>
    intro s hs f hf
    simp only [stripFields, List.mem_cons] at hs ⊢
    rcases hs with hs | hs
    · subst hs
      have h1 : (stripOne h fields r).2 < (stripOne h fields r).1.cells.length := by
        rw [stripOne_ref, stripOne_length]; exact Nat.lt_succ_self _
      rw [stripFields_read_old _ _ _ _ h1, stripOne_ref, stripOne_read_new]
      exact removeKeys_get?_mem _ fields f hf
    · exact ih _ s hs f hf

theorem stripFields_read_out (h : Heap) (rs : List Ref)
    (fields : List String) (i : Nat) (hi : i < rs.length)
    (hv : rs.getD i 0 < h.cells.length) :
    (stripFields h rs fields).1.read ((stripFields h rs fields).2.getD i 0) =
      removeKeys (h.read (rs.getD i 0)) fields := by
  induction rs generalizing h i with
  | nil => cases hi
  | cons r rest ih =>
    cases i with
    | zero =>
      simp only [stripFields, List.getD_cons_zero] at hv ⊢
      have h1 : (stripOne h fields r).2 < (stripOne h fields r).1.cells.length := by
        rw [stripOne_ref, stripOne_length]; exact Nat.lt_succ_self _
      rw [stripFields_read_old _ _ _ _ h1, stripOne_ref, stripOne_read_new]
    | succ j =>
      simp only [stripFields, List.getD_cons_succ] at hv hi ⊢
      have hj : j < rest.length := by simpa using Nat.lt_of_succ_lt_succ hi
      have hv1 : rest.getD j 0 < (stripOne h fields r).1.cells.length := by
        rw [stripOne_length]; exact Nat.lt_succ_of_lt hv
      rw [ih _ j hj hv1]
      rw [stripOne_read_other h fields r _ (Nat.ne_of_lt hv)]

/-! ### Unfolding helpers for the orchestrator -/

theorem finishSignals_calls (env : Env) (tier qd : String) (sigs : List Ref)
    (calls : List Call) : (finishSignals env tier qd sigs calls).2.2 = calls := by
  simp only [finishSignals]
  split <;> rfl

/-- Every call in `get_overnight_signals`'s trace is the primary query with
the resolved date and adjusted score/limit, or the fallback query with the
original date and the same adjusted score/limit. -/
theorem gos_calls_mem (env : Env) (direction : String) (min_score limit : Int)
    (date : String) (kwargs : Kwargs) :
    ∀ c ∈ (get_overnight_signals env direction min_score limit date kwargs).2.2,
      c = Call.fsSignals (if date = "latest" then env.today else date) direction
            (if get_user_tier kwargs = "FREE" then max min_score 7 else min_score)
            (if get_user_tier kwargs = "FREE" then min limit 10 else limit) ∨
      c = Call.bqSignals date direction
            (if get_user_tier kwargs = "FREE" then max min_score 7 else min_score)
            (if get_user_tier kwargs = "FREE" then min limit 10 else limit) := by
  intro c hc
  by_cases hf : get_user_tier kwargs = "FREE" <;>
    by_cases hd : date = "latest" <;>
    simp only [get_overnight_signals, hf, hd, reduceIte] at hc <;>
    split at hc <;>
    rw [finishSignals_calls] at hc <;>
    simp only [List.mem_cons, List.not_mem_nil, or_false] at hc <;>
    simp only [hf, hd, reduceIte] <;>
    tauto

/-- C1: for every FREE-tier call to `get_overnight_signals`, every adapter
query in the trace carries a minimum score of at least 7 and a limit of at
most 10; a caller minScore above 7 is never lowered (the effective value is
at least the caller's) and a caller limit below 10 is never raised (the
effective value is at most the caller's). -/
theorem free_tier_tightens_query (env : Env) (direction : String)
    (min_score limit : Int) (date : String) (kwargs : Kwargs)
    (hfree : get_user_tier kwargs = "FREE") :
    ∀ c ∈ (get_overnight_signals env direction min_score limit date kwargs).2.2,
      ∀ d dir ms lim,
        (c = Call.fsSignals d dir ms lim ∨ c = Call.bqSignals d dir ms lim) →
          7 ≤ ms ∧ lim ≤ 10 ∧ min_score ≤ ms ∧ lim ≤ limit := by
  intro c hc d dir ms lim hcd
  have h2 := gos_calls_mem env direction min_score limit date kwargs c hc
  rw [hfree] at h2
  simp only [reduceIte] at h2
  rcases h2 with h2 | h2 <;> subst h2 <;>
    rcases hcd with hcd | hcd <;> cases hcd <;>
    exact ⟨le_max_right _ _, min_le_right _ _, le_max_left _ _, min_le_left _ _⟩

theorem finishSignals_scan_date (env : Env) (tier qd : String)
    (sigs : List Ref) (calls : List Call) :
    (finishSignals env tier qd sigs calls).1.scan_date = qd := by
  simp only [finishSignals]
  split <;> rfl

theorem finishSignals_free (env : Env) (qd : String) (sigs : List Ref)
    (calls : List Call) :
    finishSignals env "FREE" qd sigs calls =
      ({ scan_date := qd,
         total_signals := (stripFields env.heap sigs paidFields).2.length,
         signals := (stripFields env.heap sigs paidFields).2,
         upgrade := some (mkUpgrade (stripFields env.heap sigs paidFields).2.length) },
       (stripFields env.heap sigs paidFields).1, calls) := by
  simp [finishSignals]

theorem finishSignals_nonfree (env : Env) (tier qd : String) (sigs : List Ref)
    (calls : List Call) (h : tier ≠ "FREE") :
    finishSignals env tier qd sigs calls =
      ({ scan_date := qd, total_signals := sigs.length, signals := sigs,
         upgrade := none },
       env.heap, calls) := by
  simp [finishSignals, h]

/-- Shape lemma: `get_overnight_signals` always ends in `finishSignals` on a
signal list that came either from the primary adapter (queried with the
resolved date and adjusted parameters) or from the fallback's result. -/
theorem gos_shape (env : Env) (direction : String) (min_score limit : Int)
    (date : String) (kwargs : Kwargs) :
    ∃ qd calls sigs,
      (sigs = env.fsSignals (if date = "latest" then env.today else date)
          direction
          (if get_user_tier kwargs = "FREE" then max min_score 7 else min_score)
          (if get_user_tier kwargs = "FREE" then min limit 10 else limit) ∨
       sigs = (env.bqSignals date direction
          (if get_user_tier kwargs = "FREE" then max min_score 7 else min_score)
          (if get_user_tier kwargs = "FREE" then min limit 10 else limit)).signals.getD []) ∧
      get_overnight_signals env direction min_score limit date kwargs =
        finishSignals env (get_user_tier kwargs) qd sigs calls := by
  simp only [get_overnight_signals]
  by_cases he : (env.fsSignals (if date = "latest" then env.today else date)
      direction
      (if get_user_tier kwargs = "FREE" then max min_score 7 else min_score)
      (if get_user_tier kwargs = "FREE" then min limit 10 else limit)).isEmpty = true
  · rw [if_pos he]
    exact ⟨_, _, _, Or.inr rfl, rfl⟩
  · rw [if_neg he]
    exact ⟨_, _, _, Or.inl rfl, rfl⟩

/-- C2: in every FREE-tier `get_overnight_signals` response no premium
attribute name is readable from any returned signal, while for every other
tier the heap of records is untouched and the response returns exactly the
adapter's signal list. -/
theorem signals_redaction_by_tier (env : Env) (direction : String)
    (min_score limit : Int) (date : String) :
    (∀ kwargs : Kwargs, get_user_tier kwargs = "FREE" →
      ∀ s ∈ (get_overnight_signals env direction min_score limit date kwargs).1.signals,
        ∀ f ∈ paidFields,
          ((get_overnight_signals env direction min_score limit date kwargs).2.1.read s).get? f =
            none) ∧
    (∀ kwargs : Kwargs, get_user_tier kwargs ≠ "FREE" →
      (get_overnight_signals env direction min_score limit date kwargs).2.1 = env.heap ∧
      ((get_overnight_signals env direction min_score limit date kwargs).1.signals =
          env.fsSignals (if date = "latest" then env.today else date)
            direction min_score limit ∨
        (get_overnight_signals env direction min_score limit date kwargs).1.signals =
          (env.bqSignals date direction min_score limit).signals.getD [])) := by
  constructor
  · intro kwargs hf s hs f hff
    obtain ⟨qd, calls, sigs, hsrc, heq⟩ :=
      gos_shape env direction min_score limit date kwargs
    rw [hf] at heq
    simp only [heq, finishSignals_free] at hs ⊢
    exact stripFields_no_field env.heap sigs paidFields s hs f hff
  · intro kwargs hnf
    obtain ⟨qd, calls, sigs, hsrc, heq⟩ :=
      gos_shape env direction min_score limit date kwargs
    refine ⟨?_, ?_⟩
    · simp [heq, finishSignals_nonfree env _ qd sigs calls hnf]
    · simp only [heq, finishSignals_nonfree env _ qd sigs calls hnf]
      simpa [hnf] using hsrc

/-- Closed witness for C2 at a concrete environment: a FREE caller gets the
premium fields stripped and an EDGE caller gets the untouched records. -/
theorem signals_redaction_by_tier_witness :
    (get_user_tier kwFree = "FREE" ∧
      ∀ s ∈ (get_overnight_signals envW "ALL" 5 20 "latest" kwFree).1.signals,
        ∀ f ∈ paidFields,
          ((get_overnight_signals envW "ALL" 5 20 "latest" kwFree).2.1.read s).get? f =
            none) ∧
    (get_user_tier kwEdge ≠ "FREE" ∧
      ((get_overnight_signals envW "ALL" 5 20 "latest" kwEdge).2.1 = envW.heap ∧
        ((get_overnight_signals envW "ALL" 5 20 "latest" kwEdge).1.signals =
            envW.fsSignals (if "latest" = "latest" then envW.today else "latest")
              "ALL" 5 20 ∨
          (get_overnight_signals envW "ALL" 5 20 "latest" kwEdge).1.signals =
            (envW.bqSignals "latest" "ALL" 5 20).signals.getD []))) :=
  ⟨⟨rfl, (signals_redaction_by_tier envW "ALL" 5 20 "latest").1 kwFree rfl⟩,
   ⟨by decide, (signals_redaction_by_tier envW "ALL" 5 20 "latest").2 kwEdge (by decide)⟩⟩

/-- Closed witness for C1: a FREE-tier request with minScore 5 and limit 50
only reaches the adapters with minScore at least 7 and limit at most 10. -/
theorem free_tier_tightens_query_witness :
    get_user_tier kwFree = "FREE" ∧
    (∀ c ∈ (get_overnight_signals envW "ALL" 5 50 "latest" kwFree).2.2,
      ∀ d dir ms lim,
        (c = Call.fsSignals d dir ms lim ∨ c = Call.bqSignals d dir ms lim) →
          7 ≤ ms ∧ lim ≤ 10 ∧ (5 : Int) ≤ ms ∧ lim ≤ (50 : Int)) :=
  ⟨rfl, free_tier_tightens_query envW "ALL" 5 50 "latest" kwFree rfl⟩

/-- C3: a FREE-tier `get_signal_detail` request returns the
`upgrade_required` error result and performs no adapter call at all,
whatever the ticker and date. -/
theorem free_tier_detail_denied (env : Env) (ticker date : String)
    (kwargs : Kwargs) (hfree : get_user_tier kwargs = "FREE") :
    get_signal_detail env ticker date kwargs =
      (DetailResult.upgradeRequired
        "Signal deep dives require The Overnight Edge ($49/mo)"
        "https://gammarips.com/#pricing", []) := by
  simp [get_signal_detail, hfree]

/-- Closed witness for C3 at a concrete environment and ticker. -/
theorem free_tier_detail_denied_witness :
    get_user_tier kwFree = "FREE" ∧
    get_signal_detail envW "AAPL" "latest" kwFree =
      (DetailResult.upgradeRequired
        "Signal deep dives require The Overnight Edge ($49/mo)"
        "https://gammarips.com/#pricing", []) :=
  ⟨rfl, free_tier_detail_denied envW "AAPL" "latest" kwFree rfl⟩

/-- C4: when the primary adapter returns an empty list the trace holds the
primary call followed by exactly one fallback call carrying the original
(pre-resolution) date with the adjusted direction, minScore and limit, and
the response's scan date is the fallback's reported one (falling back to the
resolved date when the fallback reports none); when the primary adapter
returns a non-empty list, the fallback is never called. -/
theorem fallback_exactly_on_empty_primary (env : Env) (direction : String)
    (min_score limit : Int) (date : String) (kwargs : Kwargs)
    (ms lim : Int) (qd : String)
    (hms : ms = if get_user_tier kwargs = "FREE" then max min_score 7 else min_score)
    (hlim : lim = if get_user_tier kwargs = "FREE" then min limit 10 else limit)
    (hqd : qd = if date = "latest" then env.today else date) :
    (env.fsSignals qd direction ms lim = [] →
      (get_overnight_signals env direction min_score limit date kwargs).2.2 =
        [Call.fsSignals qd direction ms lim,
         Call.bqSignals date direction ms lim] ∧
      (get_overnight_signals env direction min_score limit date kwargs).1.scan_date =
        (env.bqSignals date direction ms lim).scan_date.getD qd) ∧
    (env.fsSignals qd direction ms lim ≠ [] →
      (get_overnight_signals env direction min_score limit date kwargs).2.2 =
        [Call.fsSignals qd direction ms lim]) := by
  subst hms hlim hqd
  constructor
  · intro he
    simp only [get_overnight_signals, he, List.isEmpty_nil, if_true, reduceIte]
    exact ⟨finishSignals_calls _ _ _ _ _, finishSignals_scan_date _ _ _ _ _⟩
  · intro he
    have he2 : (env.fsSignals (if date = "latest" then env.today else date)
        direction
        (if get_user_tier kwargs = "FREE" then max min_score 7 else min_score)
        (if get_user_tier kwargs = "FREE" then min limit 10 else limit)).isEmpty = false := by
      simpa [List.isEmpty_iff] using he
    simp only [get_overnight_signals, he2, Bool.false_ne_true, if_false, reduceIte]
    exact finishSignals_calls _ _ _ _ _

/-- Closed witness for C4: an environment whose primary adapter is empty
triggers exactly one fallback call with the original "latest" date, and one
whose primary adapter is non-empty never calls the fallback. -/
theorem fallback_exactly_on_empty_primary_witness :
    ((5 : Int) = (if get_user_tier kwEdge = "FREE" then max 5 7 else 5) ∧
     (20 : Int) = (if get_user_tier kwEdge = "FREE" then min 20 10 else 20) ∧
     envE.today = (if "latest" = "latest" then envE.today else "latest")) ∧
    (envE.fsSignals envE.today "ALL" 5 20 = [] →
      (get_overnight_signals envE "ALL" 5 20 "latest" kwEdge).2.2 =
        [Call.fsSignals envE.today "ALL" 5 20,
         Call.bqSignals "latest" "ALL" 5 20] ∧
      (get_overnight_signals envE "ALL" 5 20 "latest" kwEdge).1.scan_date =
        (envE.bqSignals "latest" "ALL" 5 20).scan_date.getD envE.today) ∧
    (envE.fsSignals envE.today "ALL" 5 20 ≠ [] →
      (get_overnight_signals envE "ALL" 5 20 "latest" kwEdge).2.2 =
        [Call.fsSignals envE.today "ALL" 5 20]) :=
  ⟨⟨by decide, by decide, rfl⟩,
   fallback_exactly_on_empty_primary envE "ALL" 5 20 "latest" kwEdge 5 20
     envE.today (by decide) (by decide) rfl⟩

/-- C5: `get_overnight_signals` never mutates the records the adapters
returned: every dict cell that existed in the heap before the call reads the
same afterwards (FREE-tier stripping happens on freshly allocated
copies). -/
theorem gos_never_mutates (env : Env) (direction : String)
    (min_score limit : Int) (date : String) (kwargs : Kwargs) :
    ∀ r, r < env.heap.cells.length →
      (get_overnight_signals env direction min_score limit date kwargs).2.1.read r =
        env.heap.read r := by
  intro r hr
  obtain ⟨qd, calls, sigs, hsrc, heq⟩ :=
    gos_shape env direction min_score limit date kwargs
  by_cases hf : get_user_tier kwargs = "FREE"
  · rw [hf] at heq
    simp only [heq, finishSignals_free]
    exact stripFields_read_old env.heap sigs paidFields r hr
  · simp [heq, finishSignals_nonfree env _ qd sigs calls hf]

/-- Closed witness for C5: the adapter's record cell is unchanged after a
FREE-tier call that strips fields. -/
theorem gos_never_mutates_witness :
    0 < envW.heap.cells.length ∧
    (get_overnight_signals envW "ALL" 5 20 "latest" kwFree).2.1.read 0 =
      envW.heap.read 0 :=
  ⟨by decide, gos_never_mutates envW "ALL" 5 20 "latest" kwFree 0 (by decide)⟩

/-- C6: when the store raises while querying, every primary-adapter
operation catches the failure and returns the empty / absent value instead
of propagating an error. -/
theorem firestore_fails_soft (store : Store) (e : String)
    (hfail : store.failure = some e) :
    (∀ date direction min_score limit,
      FirestoreClient.get_overnight_signals store date direction min_score limit = []) ∧
    (∀ ticker date, FirestoreClient.get_signal_detail store ticker date = none) ∧
    (∀ date, FirestoreClient.get_market_themes store date = []) := by
  refine ⟨fun date direction min_score limit => ?_, fun ticker date => ?_,
    fun date => ?_⟩ <;>
    simp [FirestoreClient.get_overnight_signals, FirestoreClient.querySignals,
      FirestoreClient.get_signal_detail, FirestoreClient.queryDetail,
      FirestoreClient.get_market_themes, FirestoreClient.queryThemes, hfail]

/-- Closed witness for C6 at a failing store. -/
theorem firestore_fails_soft_witness :
    storeFailW.failure = some "connection error" ∧
    ((∀ date direction min_score limit,
        FirestoreClient.get_overnight_signals storeFailW date direction min_score limit = []) ∧
     (∀ ticker date, FirestoreClient.get_signal_detail storeFailW ticker date = none) ∧
     (∀ date, FirestoreClient.get_market_themes storeFailW date = [])) :=
  ⟨rfl, firestore_fails_soft storeFailW "connection error" rfl⟩

/-- Shape lemma: `get_market_themes` either strips the copies of a source theme list
(FREE) or returns it untouched, where the source is the primary result for
the resolved date or the fallback's reported list. -/
theorem gmt_shape (env : Env) (date : String) (kwargs : Kwargs) :
    ∃ src qd2 calls,
      (src = env.fsThemes (if date = "latest" then env.today else date) ∨
       src = (env.bqThemes date).themes.getD []) ∧
      get_market_themes env date kwargs =
        (if get_user_tier kwargs = "FREE" then
          ({ scan_date := qd2,
             themes := (stripFields env.heap src ["tickers"]).2 },
           (stripFields env.heap src ["tickers"]).1, calls)
        else ({ scan_date := qd2, themes := src }, env.heap, calls)) := by
  by_cases he : (env.fsThemes (if date = "latest" then env.today else date)).isEmpty = true
  · refine ⟨(env.bqThemes date).themes.getD [],
      (env.bqThemes date).scan_date.getD (if date = "latest" then env.today else date),
      [Call.fsThemes (if date = "latest" then env.today else date),
       Call.bqThemes date], Or.inr rfl, ?_⟩
    simp only [get_market_themes, he, reduceIte]
  · refine ⟨env.fsThemes (if date = "latest" then env.today else date),
      (if date = "latest" then env.today else date),
      [Call.fsThemes (if date = "latest" then env.today else date)],
      Or.inl rfl, ?_⟩
    simp only [get_market_themes, he, reduceIte]
    rfl

/-- C7: a FREE-tier `get_market_themes` response has the `tickers` attribute
absent from every returned theme while every other attribute of each theme
is preserved (the stripping acting on fresh copies so the adapter's records
are untouched); every other tier receives the adapter's theme list
unchanged. -/
theorem themes_redaction_by_tier (env : Env) (date : String) :
    (∀ kwargs : Kwargs, get_user_tier kwargs = "FREE" →
      (∀ t ∈ (get_market_themes env date kwargs).1.themes,
        ((get_market_themes env date kwargs).2.1.read t).get? "tickers" = none) ∧
      (∀ r, r < env.heap.cells.length →
        (get_market_themes env date kwargs).2.1.read r = env.heap.read r) ∧
      (∃ src,
        (src = env.fsThemes (if date = "latest" then env.today else date) ∨
         src = (env.bqThemes date).themes.getD []) ∧
        (get_market_themes env date kwargs).1.themes.length = src.length ∧
        ∀ i, i < src.length → src.getD i 0 < env.heap.cells.length →
          ∀ k, k ≠ "tickers" →
            ((get_market_themes env date kwargs).2.1.read
                ((get_market_themes env date kwargs).1.themes.getD i 0)).get? k =
              (env.heap.read (src.getD i 0)).get? k)) ∧
    (∀ kwargs : Kwargs, get_user_tier kwargs ≠ "FREE" →
      (get_market_themes env date kwargs).2.1 = env.heap ∧
      ((get_market_themes env date kwargs).1.themes =
          env.fsThemes (if date = "latest" then env.today else date) ∨
        (get_market_themes env date kwargs).1.themes =
          (env.bqThemes date).themes.getD [])) := by
  constructor
  · intro kwargs hf
    obtain ⟨src, qd2, calls, hsrc, heq⟩ := gmt_shape env date kwargs
    rw [hf] at heq
    simp only [reduceIte] at heq
    refine ⟨?_, ?_, src, hsrc, ?_, ?_⟩
    · intro t ht
      simp only [heq] at ht ⊢
      exact stripFields_no_field env.heap src ["tickers"] t ht "tickers"
        (List.mem_singleton.2 rfl)
    · intro r hr
      simp only [heq]
      exact stripFields_read_old env.heap src ["tickers"] r hr
    · simp only [heq]
      exact stripFields_length_out env.heap src ["tickers"]
    · intro i hi hv k hk
      simp only [heq]
      rw [stripFields_read_out env.heap src ["tickers"] i hi hv]
      exact removeKeys_get?_not_mem _ ["tickers"] k (by simpa using hk)
  · intro kwargs hnf
    obtain ⟨src, qd2, calls, hsrc, heq⟩ := gmt_shape env date kwargs
    rw [if_neg hnf] at heq
    refine ⟨by simp [heq], ?_⟩
    simp only [heq]
    exact hsrc

/-- Closed witness for C7: a FREE caller gets themes without `tickers` and
with the name preserved via the pairwise clause; an EDGE caller gets the
adapter's list with the heap untouched. -/
theorem themes_redaction_by_tier_witness :
    (get_user_tier kwFree = "FREE" ∧
      ((∀ t ∈ (get_market_themes envW "latest" kwFree).1.themes,
        ((get_market_themes envW "latest" kwFree).2.1.read t).get? "tickers" = none) ∧
      (∀ r, r < envW.heap.cells.length →
        (get_market_themes envW "latest" kwFree).2.1.read r = envW.heap.read r) ∧
      (∃ src,
        (src = envW.fsThemes (if "latest" = "latest" then envW.today else "latest") ∨
         src = (envW.bqThemes "latest").themes.getD []) ∧
        (get_market_themes envW "latest" kwFree).1.themes.length = src.length ∧
        ∀ i, i < src.length → src.getD i 0 < envW.heap.cells.length →
          ∀ k, k ≠ "tickers" →
            ((get_market_themes envW "latest" kwFree).2.1.read
                ((get_market_themes envW "latest" kwFree).1.themes.getD i 0)).get? k =
              (envW.heap.read (src.getD i 0)).get? k))) ∧
    (get_user_tier kwEdge ≠ "FREE" ∧
      ((get_market_themes envW "latest" kwEdge).2.1 = envW.heap ∧
      ((get_market_themes envW "latest" kwEdge).1.themes =
          envW.fsThemes (if "latest" = "latest" then envW.today else "latest") ∨
        (get_market_themes envW "latest" kwEdge).1.themes =
          (envW.bqThemes "latest").themes.getD []))) :=
  ⟨⟨rfl, (themes_redaction_by_tier envW "latest").1 kwFree rfl⟩,
   ⟨by decide, (themes_redaction_by_tier envW "latest").2 kwEdge (by decide)⟩⟩

/-- C8: for a non-FREE caller, when neither adapter yields a (truthy)
record, `get_signal_detail` returns the structured "Signal not found" error
value after querying both adapters; when the primary — or, failing that, the
fallback — yields a non-empty record, that record is returned. -/
theorem detail_not_found_structured (env : Env) (ticker date : String)
    (kwargs : Kwargs) (hnf : get_user_tier kwargs ≠ "FREE") (qd : String)
    (hqd : qd = if date = "latest" then env.today else date) :
    (isFalsy env.heap (env.fsDetail ticker qd) = true →
     isFalsy env.heap (env.bqDetail ticker date) = true →
       get_signal_detail env ticker date kwargs =
         (DetailResult.notFound "Signal not found" ticker,
          [Call.fsDetail ticker qd, Call.bqDetail ticker date])) ∧
    (∀ r, env.fsDetail ticker qd = some r →
       (env.heap.read r).isEmpty = false →
       (get_signal_detail env ticker date kwargs).1 = DetailResult.signal r) ∧
    (∀ r, isFalsy env.heap (env.fsDetail ticker qd) = true →
       env.bqDetail ticker date = some r →
       (env.heap.read r).isEmpty = false →
       (get_signal_detail env ticker date kwargs).1 = DetailResult.signal r) := by
  subst hqd
  refine ⟨?_, ?_, ?_⟩
  · intro h1 h2
    simp only [get_signal_detail, hnf, reduceIte, h1, if_true]
    rcases hb : env.bqDetail ticker date with _ | r
    · simp [hb]
    · have hre : (env.heap.read r).isEmpty = true := by
        simpa [isFalsy, hb] using h2
      simp [hb, hre]
  · intro r hr hne
    have hne2 : env.heap.read r ≠ [] := by
      intro hcontra
      rw [hcontra] at hne
      simp at hne
    simp [get_signal_detail, hnf, isFalsy, hr, hne, hne2]
  · intro r h1 hb hne
    have hne2 : env.heap.read r ≠ [] := by
      intro hcontra
      rw [hcontra] at hne
      simp at hne
    simp [get_signal_detail, hnf, h1, hb, hne, hne2]

/-- Closed witness for C8: with both adapters empty the result is the
structured not-found error. -/
theorem detail_not_found_structured_witness :
    get_user_tier kwEdge ≠ "FREE" ∧
    envE.today = (if "latest" = "latest" then envE.today else "latest") ∧
    ((isFalsy envE.heap (envE.fsDetail "AAPL" envE.today) = true →
      isFalsy envE.heap (envE.bqDetail "AAPL" "latest") = true →
        get_signal_detail envE "AAPL" "latest" kwEdge =
          (DetailResult.notFound "Signal not found" "AAPL",
           [Call.fsDetail "AAPL" envE.today, Call.bqDetail "AAPL" "latest"])) ∧
     (∀ r, envE.fsDetail "AAPL" envE.today = some r →
        (envE.heap.read r).isEmpty = false →
        (get_signal_detail envE "AAPL" "latest" kwEdge).1 = DetailResult.signal r) ∧
     (∀ r, isFalsy envE.heap (envE.fsDetail "AAPL" envE.today) = true →
        envE.bqDetail "AAPL" "latest" = some r →
        (envE.heap.read r).isEmpty = false →
        (get_signal_detail envE "AAPL" "latest" kwEdge).1 = DetailResult.signal r)) :=
  ⟨by decide, rfl,
   detail_not_found_structured envE "AAPL" "latest" kwEdge (by decide) envE.today rfl⟩

/-- The first adapter call of `get_overnight_signals` is always the primary
query at the resolved date. -/
theorem gos_first_call (env : Env) (direction : String)
    (min_score limit : Int) (date : String) (kwargs : Kwargs) :
    ∃ rest, (get_overnight_signals env direction min_score limit date kwargs).2.2 =
      Call.fsSignals (if date = "latest" then env.today else date) direction
        (if get_user_tier kwargs = "FREE" then max min_score 7 else min_score)
        (if get_user_tier kwargs = "FREE" then min limit 10 else limit) :: rest := by
  simp only [get_overnight_signals]
  by_cases he : (env.fsSignals (if date = "latest" then env.today else date)
      direction
      (if get_user_tier kwargs = "FREE" then max min_score 7 else min_score)
      (if get_user_tier kwargs = "FREE" then min limit 10 else limit)).isEmpty = true
  · rw [if_pos he, finishSignals_calls]
    exact ⟨_, rfl⟩
  · rw [if_neg he, finishSignals_calls]
    exact ⟨[], rfl⟩

/-- The first adapter call of a non-FREE `get_signal_detail` is always the
primary lookup at the resolved date. -/
theorem detail_first_call (env : Env) (ticker date : String) (kwargs : Kwargs)
    (hnf : get_user_tier kwargs ≠ "FREE") :
    ∃ rest, (get_signal_detail env ticker date kwargs).2 =
      Call.fsDetail ticker (if date = "latest" then env.today else date) :: rest := by
  simp only [get_signal_detail, hnf, reduceIte]
  by_cases hf : isFalsy env.heap
      (env.fsDetail ticker (if date = "latest" then env.today else date)) = true
  · rw [if_pos hf]
    rcases hb : env.bqDetail ticker date with _ | r
    · exact ⟨[Call.bqDetail ticker date], by simp [hb]⟩
    · by_cases hemp : env.heap.read r = []
      · exact ⟨[Call.bqDetail ticker date], by simp [hb, hemp]⟩
      · exact ⟨[Call.bqDetail ticker date], by simp [hb, hemp]⟩
  · rw [if_neg hf]
    rcases hb : env.fsDetail ticker (if date = "latest" then env.today else date)
        with _ | r
    · exact ⟨[], by simp [hb]⟩
    · by_cases hemp : env.heap.read r = []
      · exact ⟨[], by simp [hb, hemp]⟩
      · exact ⟨[], by simp [hb, hemp]⟩

/-- The first adapter call of `get_market_themes` is always the primary
theme query at the resolved date. -/
theorem gmt_first_call (env : Env) (date : String) (kwargs : Kwargs) :
    ∃ rest, (get_market_themes env date kwargs).2.2 =
      Call.fsThemes (if date = "latest" then env.today else date) :: rest := by
  simp only [get_market_themes]
  by_cases he : (env.fsThemes (if date = "latest" then env.today else date)).isEmpty = true <;>
    by_cases hf : get_user_tier kwargs = "FREE" <;>
    simp only [he, hf, reduceIte] <;>
    exact ⟨_, rfl⟩

/-- C9: a date of "latest" is resolved to the current calendar date before
the primary store is queried, in `get_overnight_signals`,
`get_signal_detail` (when it queries at all) and `get_market_themes`: the
first adapter call of each trace carries `env.today`, not "latest". -/
theorem latest_resolves_to_today (env : Env) (direction : String)
    (min_score limit : Int) (ticker : String) (kwargs : Kwargs) :
    (∃ rest, (get_overnight_signals env direction min_score limit "latest" kwargs).2.2 =
        Call.fsSignals env.today direction
          (if get_user_tier kwargs = "FREE" then max min_score 7 else min_score)
          (if get_user_tier kwargs = "FREE" then min limit 10 else limit) :: rest) ∧
    (get_user_tier kwargs ≠ "FREE" →
      ∃ rest, (get_signal_detail env ticker "latest" kwargs).2 =
        Call.fsDetail ticker env.today :: rest) ∧
    (∃ rest, (get_market_themes env "latest" kwargs).2.2 =
        Call.fsThemes env.today :: rest) := by
  refine ⟨?_, ?_, ?_⟩
  · have h := gos_first_call env direction min_score limit "latest" kwargs
    rw [if_pos rfl] at h
    exact h
  · intro hnf
    have h := detail_first_call env ticker "latest" kwargs hnf
    rw [if_pos rfl] at h
    exact h
  · have h := gmt_first_call env "latest" kwargs
    rw [if_pos rfl] at h
    exact h

/-- Closed witness for C9 at a concrete environment and caller. -/
theorem latest_resolves_to_today_witness :
    (∃ rest, (get_overnight_signals envW "ALL" 5 20 "latest" kwEdge).2.2 =
        Call.fsSignals envW.today "ALL"
          (if get_user_tier kwEdge = "FREE" then max 5 7 else 5)
          (if get_user_tier kwEdge = "FREE" then min 20 10 else 20) :: rest) ∧
    (get_user_tier kwEdge ≠ "FREE" →
      ∃ rest, (get_signal_detail envW "AAPL" "latest" kwEdge).2 =
        Call.fsDetail "AAPL" envW.today :: rest) ∧
    (∃ rest, (get_market_themes envW "latest" kwEdge).2.2 =
        Call.fsThemes envW.today :: rest) :=
  latest_resolves_to_today envW "ALL" 5 20 "AAPL" kwEdge

/-- C10: tier gating is exact string equality with "FREE": a missing
user-info payload or a missing tier key resolves to "FREE" (full
restriction), while any other tier string — lowercase "free", an
unrecognized value, the empty string — is fully privileged: adapter queries
carry the caller's minScore/limit untightened, no upgrade block is
attached, the heap is left untouched (no redaction), and
`get_signal_detail` queries the adapter instead of being denied. -/
theorem tier_gate_exact_free_string (t : String) (ht : t ≠ "FREE") :
    get_user_tier ⟨none⟩ = "FREE" ∧
    get_user_tier ⟨some ⟨none⟩⟩ = "FREE" ∧
    get_user_tier ⟨some ⟨some t⟩⟩ = t ∧
    (∀ env direction min_score limit date,
      (∀ c ∈ (get_overnight_signals env direction min_score limit date
          ⟨some ⟨some t⟩⟩).2.2,
        c = Call.fsSignals (if date = "latest" then env.today else date)
              direction min_score limit ∨
        c = Call.bqSignals date direction min_score limit) ∧
      (get_overnight_signals env direction min_score limit date
          ⟨some ⟨some t⟩⟩).1.upgrade = none ∧
      (get_overnight_signals env direction min_score limit date
          ⟨some ⟨some t⟩⟩).2.1 = env.heap) ∧
    (∀ env ticker date, ∃ rest,
      (get_signal_detail env ticker date ⟨some ⟨some t⟩⟩).2 =
        Call.fsDetail ticker (if date = "latest" then env.today else date) :: rest) ∧
    (∀ env date,
      (get_market_themes env date ⟨some ⟨some t⟩⟩).2.1 = env.heap) := by
  have hnf : get_user_tier ⟨some ⟨some t⟩⟩ ≠ "FREE" := ht
  refine ⟨rfl, rfl, rfl, ?_, ?_, ?_⟩
  · intro env direction min_score limit date
    refine ⟨?_, ?_, ?_⟩
    · intro c hc
      have h2 := gos_calls_mem env direction min_score limit date
        ⟨some ⟨some t⟩⟩ c hc
      simpa [hnf] using h2
    · obtain ⟨qd, calls, sigs, hsrc, heq⟩ :=
        gos_shape env direction min_score limit date ⟨some ⟨some t⟩⟩
      simp [heq, finishSignals_nonfree env _ qd sigs calls hnf]
    · obtain ⟨qd, calls, sigs, hsrc, heq⟩ :=
        gos_shape env direction min_score limit date ⟨some ⟨some t⟩⟩
      simp [heq, finishSignals_nonfree env _ qd sigs calls hnf]
  · intro env ticker date
    exact detail_first_call env ticker date ⟨some ⟨some t⟩⟩ hnf
  · intro env date
    obtain ⟨src, qd2, calls, hsrc, heq⟩ := gmt_shape env date ⟨some ⟨some t⟩⟩
    rw [if_neg hnf] at heq
    simp [heq]

/-- Closed witness for C10 at the lowercase tier string "free". -/
theorem tier_gate_exact_free_string_witness :
    ("free" ≠ "FREE") ∧
    (get_user_tier ⟨none⟩ = "FREE" ∧
     get_user_tier ⟨some ⟨none⟩⟩ = "FREE" ∧
     get_user_tier ⟨some ⟨some "free"⟩⟩ = "free" ∧
     (∀ env direction min_score limit date,
       (∀ c ∈ (get_overnight_signals env direction min_score limit date
           ⟨some ⟨some "free"⟩⟩).2.2,
         c = Call.fsSignals (if date = "latest" then env.today else date)
               direction min_score limit ∨
         c = Call.bqSignals date direction min_score limit) ∧
       (get_overnight_signals env direction min_score limit date
           ⟨some ⟨some "free"⟩⟩).1.upgrade = none ∧
       (get_overnight_signals env direction min_score limit date
           ⟨some ⟨some "free"⟩⟩).2.1 = env.heap) ∧
     (∀ env ticker date, ∃ rest,
       (get_signal_detail env ticker date ⟨some ⟨some "free"⟩⟩).2 =
         Call.fsDetail ticker (if date = "latest" then env.today else date) :: rest) ∧
     (∀ env date,
       (get_market_themes env date ⟨some ⟨some "free"⟩⟩).2.1 = env.heap)) :=
  ⟨by decide, tier_gate_exact_free_string "free" (by decide)⟩
